import Mathlib

/-!
Verification of the velocity-arbitration and odometry core of the
BracketBot quickstart repository.

The control loop (`nodes/node_control.py`, `ControlNode.run`) is embedded as a
pure per-tick transition function `tick` over an explicit cross-tick state
`ControlState`; the inputs a tick reads from the message bus are gathered in
`TickInput`.  All `time.time()` calls within one tick are modelled by the single
tick time `TickInput.now`, and floating-point arithmetic is modelled by exact
rational arithmetic (ℚ).  The external path follower
(`lib.planning.lookahead_controller`, out of scope per the spec) is an opaque
parameter of the tick; its mutable progress index `goal_idx` is part of the
arbiter state, as in the source where the arbiter resets it directly.

The odometry helper (`examples/example_localization.py`,
`DifferentialDriveOdometry`) is embedded over the real numbers so that the
trigonometric integration step is stated exactly.
-/

namespace Quickstart

/-- `TARGET_VELOCITY_MSG`: a direct velocity command (timestamp, linear m/s,
angular rad/s), as read and constructed in `node_control.py`. -/
structure TARGET_VELOCITY_MSG where
  timestamp : ℚ
  linear_velocity_mps : ℚ
  angular_velocity_radps : ℚ
deriving DecidableEq, Repr

/-- `PATH_PLAN_MSG`: an ordered list of `(x, y, yaw)` poses plus the receipt
timestamp, as consumed by `node_control.py`. -/
structure PATH_PLAN_MSG where
  timestamp : ℚ
  path_pose_list : List (ℚ × ℚ × ℚ)
deriving DecidableEq, Repr

/-- `ROBOT_POSE_MSG`: the fields of the pose message read by the control node. -/
structure ROBOT_POSE_MSG where
  x_m : ℚ
  y_m : ℚ
  theta_rad : ℚ
deriving DecidableEq, Repr

/-- `LOCALIZATION_INITIALIZED_MSG`: the localization-initialized flag. -/
structure LOCALIZATION_INITIALIZED_MSG where
  initialized : Bool
deriving DecidableEq, Repr

/-- `np.arange(start, stop, step)` for positive rational step: the list
`start + k*step` for `k < ⌈(stop - start)/step⌉`, matching numpy's element
count, in exact arithmetic. -/
def arange (start stop step : ℚ) : List ℚ :=
  (List.range (Int.toNat (Rat.ceil ((stop - start) / step)))).map
    (fun k : ℕ => start + (k : ℚ) * step)

/-- The 10 ms profile resolution of `generate_stopping_velocity_profile`. -/
def resolution : ℚ := 1 / 100

/-- `generate_stopping_velocity_profile(target_velocity_msg, decel_time_s)`
from `node_control.py`: two association lists (modelling the two Python dicts
in insertion order) from absolute timestamp `curr_time + t` to the linearly
decaying velocity `v0 - (v0/decel_time_s) * t`, for `t` ranging over
`np.arange(0, decel_time_s + 0.01, 0.01)`.  The wall clock `time.time()` read
inside the Python function is the explicit argument `curr_time`. -/
def generate_stopping_velocity_profile (target_velocity_msg : TARGET_VELOCITY_MSG)
    (decel_time_s : ℚ) (curr_time : ℚ) : List (ℚ × ℚ) × List (ℚ × ℚ) :=
  let linear_velocity_mps := target_velocity_msg.linear_velocity_mps
  let angular_velocity_radps := target_velocity_msg.angular_velocity_radps
  let time_steps := arange 0 (decel_time_s + resolution) resolution
  let deceleration_rate_linear := linear_velocity_mps / decel_time_s
  let deceleration_rate_angular := angular_velocity_radps / decel_time_s
  (time_steps.map (fun t => (t + curr_time, linear_velocity_mps - deceleration_rate_linear * t)),
   time_steps.map (fun t => (t + curr_time, angular_velocity_radps - deceleration_rate_angular * t)))

/-- Which arm of the per-tick arbitration fired (the spec's state names). -/
inductive Source where
  | following
  | externalCommand
  | stopping
  | idle
deriving DecidableEq, Repr

/-- The cross-tick mutable state of `ControlNode.run`: the latched
localization flag, `self.previous_target_velocity_msg`, the two stopping
profiles, the held `self.path_plan_msg`, and the lookahead controller's
`goal_idx` (reset directly by the arbiter on plan replacement).
`self.robot_pose_msg` is overwritten from the bus on every tick before being
read, so it is a tick input rather than state. -/
structure ControlState where
  localization_initialized : Bool
  previous_target_velocity_msg : Option TARGET_VELOCITY_MSG
  stopping_velocity_profile_linear : Option (List (ℚ × ℚ))
  stopping_velocity_profile_angular : Option (List (ℚ × ℚ))
  path_plan_msg : Option PATH_PLAN_MSG
  goal_idx : ℕ
deriving DecidableEq, Repr

/-- State at the top of `ControlNode.run`'s loop:
`localization_initialized = False`, no previous command, no profiles, no plan,
`goal_idx = 0`. -/
def initialControlState : ControlState :=
  { localization_initialized := false
    previous_target_velocity_msg := none
    stopping_velocity_profile_linear := none
    stopping_velocity_profile_angular := none
    path_plan_msg := none
    goal_idx := 0 }

/-- What one tick reads from the bus (`get_latest_message` results; `none`
means no fresh message) plus the tick's wall-clock time. -/
structure TickInput where
  now : ℚ
  localization_initialized_msg : Option LOCALIZATION_INITIALIZED_MSG
  target_velocity_msg : Option TARGET_VELOCITY_MSG
  path_plan_msg : Option PATH_PLAN_MSG
  robot_pose_msg : Option ROBOT_POSE_MSG
deriving DecidableEq, Repr

/-- The opaque path follower `lookahead_controller.vel_request`, as a function
of the plan's pose list, the current pose `(x, y, yaw)` and the current
progress index; it returns `(linear, angular)` plus its updated progress
index. -/
abbrev Follower := List (ℚ × ℚ × ℚ) → (ℚ × ℚ × ℚ) → ℕ → ℚ × ℚ × ℕ

/-- Python's `min(keys, key=lambda x: abs(x - now))` over the dict, combined
with the dict lookup: the first entry whose key minimizes the distance to
`now` (Python's `min` keeps the earliest minimizer in iteration order);
`none` for the empty profile, where Python would raise. -/
def nearestEntry (now : ℚ) : List (ℚ × ℚ) → Option (ℚ × ℚ)
  | [] => none
  | e :: es =>
      some (es.foldl (fun best c => if |c.1 - now| < |best.1 - now| then c else best) e)

/-- Lines 76–90 of `node_control.py`: fold this tick's observed path-plan
message into the held plan.  A first plan is adopted as is; a plan whose
`path_pose_list` differs from the held one resets `goal_idx` to 0 and replaces
the held plan; an identical pose list leaves the held plan (and its old
timestamp) untouched.  Returns `(goal_idx, held plan)` after the fold. -/
def mergePlan (goal_idx : ℕ) (held observed : Option PATH_PLAN_MSG) :
    ℕ × Option PATH_PLAN_MSG :=
  match observed with
  | none => (goal_idx, held)
  | some newPlan =>
      match held with
      | none => (goal_idx, some newPlan)
      | some oldPlan =>
          if newPlan.path_pose_list ≠ oldPlan.path_pose_list then (0, some newPlan)
          else (goal_idx, some oldPlan)

/-- Lines 93–95 of `node_control.py`: drop the held plan when it is more than
5.0 s old. -/
def planWatchdog (now : ℚ) (held : Option PATH_PLAN_MSG) : Option PATH_PLAN_MSG :=
  match held with
  | none => none
  | some p => if now - p.timestamp > 5 then none else some p

/-- Everything the arbitration section (lines 76–137) of one tick produces:
the chosen command, which arm fired, the updated cross-tick fields, and the
arguments of the `vel_request` call when one happened. -/
structure ArbResult where
  command : TARGET_VELOCITY_MSG
  source : Source
  previous_target_velocity_msg : Option TARGET_VELOCITY_MSG
  stopping_velocity_profile_linear : Option (List (ℚ × ℚ))
  stopping_velocity_profile_angular : Option (List (ℚ × ℚ))
  path_plan_msg : Option PATH_PLAN_MSG
  goal_idx : ℕ
  followerCall : Option (PATH_PLAN_MSG × (ℚ × ℚ × ℚ) × ℕ)
deriving Repr

/-- The arbitration section of one tick of `ControlNode.run` (lines 76–137).
Precedence: a held, non-stale plan together with a pose gives `Following`; else
a fresh target-velocity message is adopted verbatim and the stopping profiles
are cleared; else a previous command younger than 2.0 s gives `Stopping`,
generating the profiles if either is missing and emitting the
nearest-timestamp entries; else `Idle` emits zero.  Note: the `Idle` arm of the
source assigns `self.stopping_velocity_profile` — an attribute name that is
never read — so the linear/angular profiles survive an `Idle` tick; the model
reproduces that. -/
def arbitrate (follower : Follower) (s : ControlState) (i : TickInput) : ArbResult :=
  let merged := mergePlan s.goal_idx s.path_plan_msg i.path_plan_msg
  let held := planWatchdog i.now merged.2
  match held, i.robot_pose_msg with
  | some plan, some rp =>
      let pose := (rp.x_m, rp.y_m, rp.theta_rad)
      let out := follower plan.path_pose_list pose merged.1
      let cmd : TARGET_VELOCITY_MSG :=
        { timestamp := i.now, linear_velocity_mps := out.1, angular_velocity_radps := out.2.1 }
      { command := cmd
        source := .following
        previous_target_velocity_msg := some cmd
        stopping_velocity_profile_linear := s.stopping_velocity_profile_linear
        stopping_velocity_profile_angular := s.stopping_velocity_profile_angular
        path_plan_msg := some plan
        goal_idx := out.2.2
        followerCall := some (plan, pose, merged.1) }
  | held', _ =>
      match i.target_velocity_msg with
      | some t =>
          { command := t
            source := .externalCommand
            previous_target_velocity_msg := some t
            stopping_velocity_profile_linear := none
            stopping_velocity_profile_angular := none
            path_plan_msg := held'
            goal_idx := merged.1
            followerCall := none }
      | none =>
          match s.previous_target_velocity_msg with
          | some prev =>
              if prev.timestamp > i.now - 2 then
                let profs :=
                  match s.stopping_velocity_profile_linear,
                        s.stopping_velocity_profile_angular with
                  | some l, some a => (l, a)
                  | _, _ => generate_stopping_velocity_profile prev 2 i.now
                let le := (nearestEntry i.now profs.1).getD (0, 0)
                let ae := (nearestEntry i.now profs.2).getD (0, 0)
                { command := { timestamp := i.now, linear_velocity_mps := le.2,
                               angular_velocity_radps := ae.2 }
                  source := .stopping
                  previous_target_velocity_msg := some prev
                  stopping_velocity_profile_linear := some profs.1
                  stopping_velocity_profile_angular := some profs.2
                  path_plan_msg := held'
                  goal_idx := merged.1
                  followerCall := none }
              else
                { command := { timestamp := i.now, linear_velocity_mps := 0,
                               angular_velocity_radps := 0 }
                  source := .idle
                  previous_target_velocity_msg := none
                  stopping_velocity_profile_linear := s.stopping_velocity_profile_linear
                  stopping_velocity_profile_angular := s.stopping_velocity_profile_angular
                  path_plan_msg := held'
                  goal_idx := merged.1
                  followerCall := none }
          | none =>
              { command := { timestamp := i.now, linear_velocity_mps := 0,
                             angular_velocity_radps := 0 }
                source := .idle
                previous_target_velocity_msg := none
                stopping_velocity_profile_linear := s.stopping_velocity_profile_linear
                stopping_velocity_profile_angular := s.stopping_velocity_profile_angular
                path_plan_msg := held'
                goal_idx := merged.1
                followerCall := none }

/-- Lines 139–140 of `node_control.py`: the localization flag latched after
this tick's message (absent message keeps the previous value). -/
def latchedFlag (s : ControlState) (i : TickInput) : Bool :=
  match i.localization_initialized_msg with
  | some m => m.initialized
  | none => s.localization_initialized

/-- Observable outcome of one full tick: the new cross-tick state, the chosen
command and its source, the `vel_request` call if any, the
`(linear, angular)` pair forwarded to the motor controller (`none` when
suppressed), and whether the wheel-velocities telemetry was published. -/
structure TickResult where
  state : ControlState
  command : TARGET_VELOCITY_MSG
  source : Source
  followerCall : Option (PATH_PLAN_MSG × (ℚ × ℚ × ℚ) × ℕ)
  actuatorCommand : Option (ℚ × ℚ)
  publishedWheelTelemetry : Bool
deriving Repr

/-- One full tick of `ControlNode.run` (lines 70–151): arbitration, latching
of the localization flag, and the gated actuator write / telemetry publish
(both inside `if self.localization_initialized:`). -/
def tick (follower : Follower) (s : ControlState) (i : TickInput) : TickResult :=
  let a := arbitrate follower s i
  let flag := latchedFlag s i
  { state :=
      { localization_initialized := flag
        previous_target_velocity_msg := a.previous_target_velocity_msg
        stopping_velocity_profile_linear := a.stopping_velocity_profile_linear
        stopping_velocity_profile_angular := a.stopping_velocity_profile_angular
        path_plan_msg := a.path_plan_msg
        goal_idx := a.goal_idx }
    command := a.command
    source := a.source
    followerCall := a.followerCall
    actuatorCommand :=
      if flag then some (a.command.linear_velocity_mps, a.command.angular_velocity_radps)
      else none
    publishedWheelTelemetry := flag }

/-- `_circumference` from `examples/example_localization.py`: wheel
circumference from its diameter. -/
noncomputable def circumference (diam_m : ℝ) : ℝ := Real.pi * diam_m

/-- Python's float `%` with modulus `2π`: `x - 2π * ⌊x / (2π)⌋`, the
floored-division remainder. -/
noncomputable def wrapTwoPi (x : ℝ) : ℝ :=
  x - 2 * Real.pi * ⌊x / (2 * Real.pi)⌋

/-- The `DifferentialDriveOdometry` dataclass of
`examples/example_localization.py`: geometry, pose `(x, z, yaw)`, and the
cached previous encoder readings. -/
structure DifferentialDriveOdometry where
  wheel_base : ℝ
  wheel_diameter : ℝ
  x : ℝ
  z : ℝ
  yaw : ℝ
  prev_left_turns : Option ℝ
  prev_right_turns : Option ℝ

/-- A freshly constructed `DifferentialDriveOdometry()` with the default
geometry (0.165 m wheels, 0.425 m base), pose at the origin and no cached
encoder readings. -/
noncomputable def odoInit : DifferentialDriveOdometry :=
  { wheel_base := 0.425
    wheel_diameter := 0.165
    x := 0
    z := 0
    yaw := 0
    prev_left_turns := none
    prev_right_turns := none }

/-- `DifferentialDriveOdometry.reset`: zero the pose and forget the cached
encoder readings. -/
def odoReset (s : DifferentialDriveOdometry) : DifferentialDriveOdometry :=
  { s with x := 0, z := 0, yaw := 0, prev_left_turns := none, prev_right_turns := none }

open Classical in
/-- `DifferentialDriveOdometry.update(left_turns, right_turns)`.  On the first
call (`prev_left_turns is None`) it only caches the readings.  Otherwise it
integrates: wheel travel deltas via the circumference, `dc = (dl+dr)/2`,
`dtheta = (dr-dl)/wheel_base`; when `|dtheta| > 1e-6` it advances along the
arc with the half-step heading `yaw + dtheta/2`, otherwise straight along
`yaw`; finally `yaw` becomes `(yaw + dtheta) % 2π`. -/
noncomputable def odoUpdate (s : DifferentialDriveOdometry) (left_turns right_turns : ℝ) :
    DifferentialDriveOdometry :=
  match s.prev_left_turns, s.prev_right_turns with
  | some pl, some pr =>
      let dl := (left_turns - pl) * circumference s.wheel_diameter
      let dr := (right_turns - pr) * circumference s.wheel_diameter
      let dc := 0.5 * (dl + dr)
      let dtheta := (dr - dl) / s.wheel_base
      let heading := if |dtheta| > 1 / 1000000 then s.yaw + 0.5 * dtheta else s.yaw
      { s with
        x := s.x + dc * Real.cos heading
        z := s.z + dc * Real.sin heading
        yaw := wrapTwoPi (s.yaw + dtheta)
        prev_left_turns := some left_turns
        prev_right_turns := some right_turns }
  | _, _ =>
      { s with prev_left_turns := some left_turns, prev_right_turns := some right_turns }

/-- A call made to a `DifferentialDriveOdometry` object: `update` or `reset`. -/
inductive OdoOp where
  | update (left_turns right_turns : ℝ)
  | reset

/-- Apply one call. -/
noncomputable def odoStep (s : DifferentialDriveOdometry) : OdoOp → DifferentialDriveOdometry
  | .update l r => odoUpdate s l r
  | .reset => odoReset s

/-- Apply a sequence of calls. -/
noncomputable def odoRun (s : DifferentialDriveOdometry) (ops : List OdoOp) :
    DifferentialDriveOdometry :=
  ops.foldl odoStep s

/-!
### A concrete five-tick run

A follower that always requests `(3, 0)` and keeps its index at 0, and a run:
external command at t=0; nothing at t=0.1 (stopping, profiles generated);
plan and pose at t=0.2 (following); pose again at t=4 (following); nothing at
t=5.5 (plan dropped as stale, stopping re-entered).
-/

/-- A path follower that always requests `(3, 0)` with progress index 0. -/
def cexFollower : Follower := fun _ _ _ => (3, 0, 0)

/-- Tick 1 at `t = 0`: a fresh external command `(2, 1)` arrives. -/
def cexTick1 : TickResult :=
  tick cexFollower initialControlState ⟨0, none, some ⟨0, 2, 1⟩, none, none⟩

/-- Tick 2 at `t = 0.1`: no input at all. -/
def cexTick2 : TickResult := tick cexFollower cexTick1.state ⟨1/10, none, none, none, none⟩

/-- Tick 3 at `t = 0.2`: a path plan (received at 0.2) and a pose arrive. -/
def cexTick3 : TickResult :=
  tick cexFollower cexTick2.state ⟨2/10, none, none, some ⟨2/10, [(0, 0, 0)]⟩, some ⟨0, 0, 0⟩⟩

/-- Tick 4 at `t = 4`: the held plan is 3.8 s old, a pose is available. -/
def cexTick4 : TickResult :=
  tick cexFollower cexTick3.state ⟨4, none, none, none, some ⟨0, 0, 0⟩⟩

/-- Tick 5 at `t = 5.5`: the held plan is 5.3 s old and is dropped; the last
adopted command (from tick 4) is 1.5 s old. -/
def cexTick5 : TickResult := tick cexFollower cexTick4.state ⟨11/2, none, none, none, none⟩

/-!
## Proofs

Batteries marks the arithmetic on `Rat` `@[irreducible]`; re-marking it
semireducible lets `rfl`/`decide` evaluate the model on concrete inputs (the
kernel is unaffected either way).
-/

attribute [local semireducible] Rat.mul Rat.add Rat.sub Rat.inv Rat.ofScientific

/-- `Rat.ceil` of a natural number cast is that number. -/
lemma ratCeil_natCast (n : ℕ) : Rat.ceil (n : ℚ) = (n : ℤ) := by
  unfold Rat.ceil
  simp

/-- `np.arange(0, m*res + res, res)` in exact arithmetic is
`[0, res, 2*res, …, m*res]`. -/
lemma arange_step_mul (m : ℕ) :
    arange 0 ((m : ℚ) * resolution + resolution) resolution =
      (List.range (m + 1)).map (fun k : ℕ => (k : ℚ) * resolution) := by
  have h : ((m : ℚ) * resolution + resolution - 0) / resolution = ((m + 1 : ℕ) : ℚ) := by
    unfold resolution
    push_cast
    field_simp
  unfold arange
  rw [h, ratCeil_natCast]
  simp only [Int.toNat_natCast]
  exact List.map_congr_left (fun a _ => by ring)

/-- For any `m`, the profiles generated for decel time `m * resolution` are the
maps `k ↦ (k*res + c, v - (v/T) * (k*res))` over `k ∈ [0, m]`. -/
lemma generate_profile_eq (ts v0 w0 c : ℚ) (m : ℕ) :
    (generate_stopping_velocity_profile ⟨ts, v0, w0⟩ ((m : ℚ) * resolution) c).1 =
      (List.range (m + 1)).map
        (fun k : ℕ => ((k : ℚ) * resolution + c,
          v0 - v0 / ((m : ℚ) * resolution) * ((k : ℚ) * resolution))) ∧
    (generate_stopping_velocity_profile ⟨ts, v0, w0⟩ ((m : ℚ) * resolution) c).2 =
      (List.range (m + 1)).map
        (fun k : ℕ => ((k : ℚ) * resolution + c,
          w0 - w0 / ((m : ℚ) * resolution) * ((k : ℚ) * resolution))) := by
  simp only [generate_stopping_velocity_profile, arange_step_mul, List.map_map]
  constructor <;> exact List.map_congr_left (fun a _ => rfl)

/-- C3: for every `v0`, `w0` and decel time `T` that is a positive multiple
`(m+1) * 0.01` of the resolution, `generate_stopping_velocity_profile` builds
two mappings over timestamps `now + t` for `t ∈ {0, 0.01, …, T}` (both
endpoints included) with values `v0 - (v0/T)*t` and `w0 - (w0/T)*t`; and the
linear profile of `generate(2.0, 1.0, 2.0)` has value 2 at `t = 0`, 1 at
`t = 1` and 0 at `t = 2`, and is strictly decreasing in `t`.  (The domain
statement is restricted to multiples of the resolution; see the
counterexample for other decel times.) -/
theorem generate_profile_spec (ts v0 w0 c : ℚ) (m : ℕ) :
    ((generate_stopping_velocity_profile ⟨ts, v0, w0⟩ (((m + 1 : ℕ) : ℚ) * resolution) c).1 =
        (List.range (m + 1 + 1)).map
          (fun k : ℕ => ((k : ℚ) * resolution + c,
            v0 - v0 / (((m + 1 : ℕ) : ℚ) * resolution) * ((k : ℚ) * resolution))) ∧
      (generate_stopping_velocity_profile ⟨ts, v0, w0⟩ (((m + 1 : ℕ) : ℚ) * resolution) c).2 =
        (List.range (m + 1 + 1)).map
          (fun k : ℕ => ((k : ℚ) * resolution + c,
            w0 - w0 / (((m + 1 : ℕ) : ℚ) * resolution) * ((k : ℚ) * resolution)))) ∧
    ((c, 2) ∈ (generate_stopping_velocity_profile ⟨ts, 2, 1⟩ 2 c).1 ∧
      (1 + c, 1) ∈ (generate_stopping_velocity_profile ⟨ts, 2, 1⟩ 2 c).1 ∧
      (2 + c, 0) ∈ (generate_stopping_velocity_profile ⟨ts, 2, 1⟩ 2 c).1 ∧
      List.Chain' (fun a b => b.2 < a.2)
        (generate_stopping_velocity_profile ⟨ts, 2, 1⟩ 2 c).1) := by
  refine ⟨generate_profile_eq ts v0 w0 c (m + 1), ?_⟩
  have h2 : (2 : ℚ) = ((200 : ℕ) : ℚ) * resolution := by norm_num [resolution]
  have hgen := (generate_profile_eq ts 2 1 c 200).1
  rw [← h2] at hgen
  rw [hgen]
  refine ⟨?_, ?_, ?_, ?_⟩
  · exact List.mem_map.mpr ⟨0, List.mem_range.mpr (by norm_num), by norm_num [resolution]⟩
  · exact List.mem_map.mpr ⟨100, List.mem_range.mpr (by norm_num), by norm_num [resolution]⟩
  · exact List.mem_map.mpr ⟨200, List.mem_range.mpr (by norm_num), by norm_num [resolution]⟩
  · rw [List.chain'_map, List.chain'_range_succ]
    intro j hj
    simp only [resolution]
    push_cast
    linarith

/-- C3, counterexample to the claim as stated: for the positive decel time
`T = 0.015` (not a multiple of the 0.01 s resolution), the generated linear
profile's timestamps are `{0, 0.01, 0.02}`: the claimed endpoint `now + T`
is not in the domain, and the profile holds a point `0.02 > T` whose value
`-1/3` even undershoots zero. -/
theorem generate_profile_endpoint_cex :
    (0 : ℚ) < 3 / 200 ∧
    (generate_stopping_velocity_profile ⟨0, 1, 1⟩ (3 / 200) 0).1.map Prod.fst =
      [0, 1 / 100, 1 / 50] ∧
    (3 / 200 : ℚ) ∉
      (generate_stopping_velocity_profile ⟨0, 1, 1⟩ (3 / 200) 0).1.map Prod.fst ∧
    ((1 / 50 : ℚ), (-1 / 3 : ℚ)) ∈ (generate_stopping_velocity_profile ⟨0, 1, 1⟩ (3 / 200) 0).1 := by
  refine ⟨by norm_num, by decide, ?_, by decide⟩
  intro hmem
  have : (3 / 200 : ℚ) ∈ [(0 : ℚ), 1 / 100, 1 / 50] := by
    have h := (by decide :
      (generate_stopping_velocity_profile ⟨0, 1, 1⟩ (3 / 200) 0).1.map Prod.fst =
        [(0 : ℚ), 1 / 100, 1 / 50])
    rwa [h] at hmem
  revert this
  decide

/-- The floored remainder by `2π` lands in `[0, 2π)`. -/
lemma wrapTwoPi_mem (x : ℝ) : 0 ≤ wrapTwoPi x ∧ wrapTwoPi x < 2 * Real.pi := by
  have h2pi : (0 : ℝ) < 2 * Real.pi := by positivity
  have hfr : wrapTwoPi x = Int.fract (x / (2 * Real.pi)) * (2 * Real.pi) := by
    unfold wrapTwoPi
    rw [Int.fract]
    field_simp
  constructor
  · rw [hfr]
    exact mul_nonneg (Int.fract_nonneg _) h2pi.le
  · rw [hfr]
    calc Int.fract (x / (2 * Real.pi)) * (2 * Real.pi)
        < 1 * (2 * Real.pi) := mul_lt_mul_of_pos_right (Int.fract_lt_one _) h2pi
      _ = 2 * Real.pi := one_mul _

/-- C8: with no cached encoder reading (fresh construction or just after
`reset`), `update` leaves the pose `(x, z, yaw)` unchanged for every input and
only caches the readings. -/
theorem odoUpdate_first_call (s : DifferentialDriveOdometry) (l r : ℝ)
    (h : s.prev_left_turns = none) :
    (odoUpdate s l r).x = s.x ∧ (odoUpdate s l r).z = s.z ∧ (odoUpdate s l r).yaw = s.yaw ∧
    (odoUpdate s l r).prev_left_turns = some l ∧
    (odoUpdate s l r).prev_right_turns = some r := by
  cases hr : s.prev_right_turns <;> simp [odoUpdate, h, hr]

/-- C8 witness: a first `update` on a freshly constructed odometry object. -/
theorem odoUpdate_first_call_witness :
    (odoUpdate odoInit 3 4).x = odoInit.x ∧ (odoUpdate odoInit 3 4).z = odoInit.z ∧
    (odoUpdate odoInit 3 4).yaw = odoInit.yaw ∧
    (odoUpdate odoInit 3 4).prev_left_turns = some 3 ∧
    (odoUpdate odoInit 3 4).prev_right_turns = some 4 :=
  odoUpdate_first_call odoInit 3 4 rfl

/-- C4: on a non-first `update`, with `dl = (l - prev_l)·π·d` and `dr`
symmetric, `dc = (dl+dr)/2` and `dtheta = (dr-dl)/wheel_base`, position
advances by `dc·cos h` in `x` and `dc·sin h` in `z`, where `h` is the
half-step heading `yaw + dtheta/2` when `|dtheta| > 1e-6` and the pre-update
`yaw` otherwise; afterwards `yaw` becomes `(yaw + dtheta) mod 2π`. -/
theorem odoUpdate_integration (s : DifferentialDriveOdometry) (l r pl pr : ℝ)
    (hl : s.prev_left_turns = some pl) (hr : s.prev_right_turns = some pr) :
    (odoUpdate s l r).x = s.x +
      (0.5 * ((l - pl) * circumference s.wheel_diameter + (r - pr) * circumference s.wheel_diameter)) *
        Real.cos (if |((r - pr) * circumference s.wheel_diameter - (l - pl) * circumference s.wheel_diameter) / s.wheel_base| > 1 / 1000000
          then s.yaw + 0.5 * (((r - pr) * circumference s.wheel_diameter - (l - pl) * circumference s.wheel_diameter) / s.wheel_base)
          else s.yaw) ∧
    (odoUpdate s l r).z = s.z +
      (0.5 * ((l - pl) * circumference s.wheel_diameter + (r - pr) * circumference s.wheel_diameter)) *
        Real.sin (if |((r - pr) * circumference s.wheel_diameter - (l - pl) * circumference s.wheel_diameter) / s.wheel_base| > 1 / 1000000
          then s.yaw + 0.5 * (((r - pr) * circumference s.wheel_diameter - (l - pl) * circumference s.wheel_diameter) / s.wheel_base)
          else s.yaw) ∧
    (odoUpdate s l r).yaw = wrapTwoPi (s.yaw +
      ((r - pr) * circumference s.wheel_diameter - (l - pl) * circumference s.wheel_diameter) / s.wheel_base) := by
  refine ⟨?_, ?_, ?_⟩ <;> simp only [odoUpdate, hl, hr]

/-- C4 witness: one integrating update from the origin with cached readings
`(0, 0)` and new readings `(1, 0)`. -/
theorem odoUpdate_integration_witness :
    (odoUpdate ⟨0.425, 0.165, 0, 0, 0, some 0, some 0⟩ 1 0).yaw =
      wrapTwoPi (0 + ((0 - 0) * circumference 0.165 - (1 - 0) * circumference 0.165) / 0.425) :=
  (odoUpdate_integration ⟨0.425, 0.165, 0, 0, 0, some 0, some 0⟩ 1 0 0 0 rfl rfl).2.2

/-- One `update` or `reset` call keeps the yaw inside `[0, 2π)`. -/
lemma odoStep_yaw (s : DifferentialDriveOdometry) (op : OdoOp)
    (h0 : 0 ≤ s.yaw) (h1 : s.yaw < 2 * Real.pi) :
    0 ≤ (odoStep s op).yaw ∧ (odoStep s op).yaw < 2 * Real.pi := by
  cases op with
  | reset =>
      constructor
      · simp [odoStep, odoReset]
      · simp only [odoStep, odoReset]
        positivity
  | update l r =>
      cases hl : s.prev_left_turns with
      | none =>
          cases hr : s.prev_right_turns <;>
            · simp only [odoStep, odoUpdate, hl, hr]
              exact ⟨h0, h1⟩
      | some pl =>
          cases hr : s.prev_right_turns with
          | none =>
              simp only [odoStep, odoUpdate, hl, hr]
              exact ⟨h0, h1⟩
          | some pr =>
              simp only [odoStep, odoUpdate, hl, hr]
              exact wrapTwoPi_mem _

/-- C9: over every sequence of `update`/`reset` calls starting from a fresh
`DifferentialDriveOdometry`, the yaw stays in `[0, 2π)` (quantifying over all
call sequences covers the state after every call), and `reset` always sets it
to `0`. -/
theorem pose_yaw_invariant (ops : List OdoOp) :
    (0 ≤ (odoRun odoInit ops).yaw ∧ (odoRun odoInit ops).yaw < 2 * Real.pi) ∧
    (∀ s : DifferentialDriveOdometry, (odoReset s).yaw = 0) := by
  constructor
  · have key : ∀ (ops' : List OdoOp) (s : DifferentialDriveOdometry),
        0 ≤ s.yaw → s.yaw < 2 * Real.pi →
        0 ≤ (odoRun s ops').yaw ∧ (odoRun s ops').yaw < 2 * Real.pi := by
      intro ops'
      induction ops' with
      | nil => exact fun s h0 h1 => ⟨h0, h1⟩
      | cons op rest ih =>
          intro s h0 h1
          rw [show odoRun s (op :: rest) = odoRun (odoStep s op) rest from rfl]
          obtain ⟨a, b⟩ := odoStep_yaw s op h0 h1
          exact ih _ a b
    exact key ops odoInit (le_refl 0) (by positivity)
  · exact fun s => rfl

/-- The `vel_request` call of a tick happens exactly in the `Following` arm:
with a surviving plan and a pose it receives the merged plan, the pose tuple
and the post-merge progress index; otherwise there is no call. -/
lemma arbitrate_followerCall (f : Follower) (s : ControlState) (i : TickInput) :
    (arbitrate f s i).followerCall =
      match planWatchdog i.now (mergePlan s.goal_idx s.path_plan_msg i.path_plan_msg).2,
            i.robot_pose_msg with
      | some plan, some rp =>
          some (plan, (rp.x_m, rp.y_m, rp.theta_rad),
            (mergePlan s.goal_idx s.path_plan_msg i.path_plan_msg).1)
      | _, _ => none := by
  cases hw : planWatchdog i.now (mergePlan s.goal_idx s.path_plan_msg i.path_plan_msg).2 <;>
    cases hp : i.robot_pose_msg <;>
      cases ht : i.target_velocity_msg <;>
        cases hprev : s.previous_target_velocity_msg <;>
          simp [arbitrate, hw, hp, ht, hprev] <;>
            split <;> rfl

/-- The progress index after a tick: the follower's updated index in the
`Following` arm, the post-merge index otherwise. -/
lemma arbitrate_goal_idx (f : Follower) (s : ControlState) (i : TickInput) :
    (arbitrate f s i).goal_idx =
      match planWatchdog i.now (mergePlan s.goal_idx s.path_plan_msg i.path_plan_msg).2,
            i.robot_pose_msg with
      | some plan, some rp =>
          (f plan.path_pose_list (rp.x_m, rp.y_m, rp.theta_rad)
            (mergePlan s.goal_idx s.path_plan_msg i.path_plan_msg).1).2.2
      | _, _ => (mergePlan s.goal_idx s.path_plan_msg i.path_plan_msg).1 := by
  cases hw : planWatchdog i.now (mergePlan s.goal_idx s.path_plan_msg i.path_plan_msg).2 <;>
    cases hp : i.robot_pose_msg <;>
      cases ht : i.target_velocity_msg <;>
        cases hprev : s.previous_target_velocity_msg <;>
          simp [arbitrate, hw, hp, ht, hprev] <;>
            split <;> rfl

/-- C2: whenever a held plan survives the 5.0 s watchdog and a pose is
available this tick, the tick is `Following`: the command is the
path-follower's output over that plan and pose, it is stored as the last
adopted command, and a simultaneously fresh external velocity command is
never adopted. -/
theorem following_precedence (f : Follower) (s : ControlState) (i : TickInput)
    (p : PATH_PLAN_MSG) (rp : ROBOT_POSE_MSG)
    (hplan : planWatchdog i.now (mergePlan s.goal_idx s.path_plan_msg i.path_plan_msg).2 = some p)
    (hpose : i.robot_pose_msg = some rp) :
    (tick f s i).source = .following ∧
    (tick f s i).source ≠ .externalCommand ∧
    (tick f s i).followerCall =
      some (p, (rp.x_m, rp.y_m, rp.theta_rad),
        (mergePlan s.goal_idx s.path_plan_msg i.path_plan_msg).1) ∧
    (tick f s i).command =
      { timestamp := i.now,
        linear_velocity_mps :=
          (f p.path_pose_list (rp.x_m, rp.y_m, rp.theta_rad)
            (mergePlan s.goal_idx s.path_plan_msg i.path_plan_msg).1).1,
        angular_velocity_radps :=
          (f p.path_pose_list (rp.x_m, rp.y_m, rp.theta_rad)
            (mergePlan s.goal_idx s.path_plan_msg i.path_plan_msg).1).2.1 } ∧
    (tick f s i).state.previous_target_velocity_msg = some (tick f s i).command := by
  simp [tick, arbitrate, hplan, hpose]

/-- C2 witness: a fresh plan, a pose and a fresh external command arrive on
the same tick; `Following` wins. -/
theorem following_precedence_witness :
    (tick (fun _ _ _ => ((1 : ℚ), (2 : ℚ), (7 : ℕ))) initialControlState
        ⟨0, none, some ⟨0, 9, 9⟩, some ⟨0, [(1, 2, 3)]⟩, some ⟨4, 5, 6⟩⟩).source = .following ∧
    (tick (fun _ _ _ => ((1 : ℚ), (2 : ℚ), (7 : ℕ))) initialControlState
        ⟨0, none, some ⟨0, 9, 9⟩, some ⟨0, [(1, 2, 3)]⟩, some ⟨4, 5, 6⟩⟩).source ≠
      .externalCommand :=
  ⟨(following_precedence (fun _ _ _ => ((1 : ℚ), (2 : ℚ), (7 : ℕ))) initialControlState
      ⟨0, none, some ⟨0, 9, 9⟩, some ⟨0, [(1, 2, 3)]⟩, some ⟨4, 5, 6⟩⟩
      ⟨0, [(1, 2, 3)]⟩ ⟨4, 5, 6⟩ rfl rfl).1,
   (following_precedence (fun _ _ _ => ((1 : ℚ), (2 : ℚ), (7 : ℕ))) initialControlState
      ⟨0, none, some ⟨0, 9, 9⟩, some ⟨0, [(1, 2, 3)]⟩, some ⟨4, 5, 6⟩⟩
      ⟨0, [(1, 2, 3)]⟩ ⟨4, 5, 6⟩ rfl rfl).2.1⟩

/-- C5: a held plan whose timestamp is more than 5.0 s old at tick time is
dropped this tick even with no replacement — the tick cannot be `Following`
and the follower is not consulted — and, in general, any `vel_request` call
of a tick uses a plan at most 5.0 s old. -/
theorem plan_staleness_watchdog (f : Follower) (s : ControlState) (i : TickInput) :
    (∀ p : PATH_PLAN_MSG,
      (mergePlan s.goal_idx s.path_plan_msg i.path_plan_msg).2 = some p →
      i.now - p.timestamp > 5 →
      (tick f s i).state.path_plan_msg = none ∧
      (tick f s i).source ≠ .following ∧
      (tick f s i).followerCall = none) ∧
    (∀ (q : PATH_PLAN_MSG) (pose : ℚ × ℚ × ℚ) (g : ℕ),
      (tick f s i).followerCall = some (q, pose, g) → i.now - q.timestamp ≤ 5) := by
  constructor
  · intro p hmerge hold
    have hw : planWatchdog i.now (mergePlan s.goal_idx s.path_plan_msg i.path_plan_msg).2 = none := by
      rw [hmerge]
      simp [planWatchdog, hold]
    cases hp : i.robot_pose_msg <;>
      cases ht : i.target_velocity_msg <;>
        cases hprev : s.previous_target_velocity_msg <;>
          simp [tick, arbitrate, hw, hp, ht, hprev] <;>
            split <;> simp
  · intro q pose g hcall
    by_contra hgt
    push_neg at hgt
    cases hw : planWatchdog i.now (mergePlan s.goal_idx s.path_plan_msg i.path_plan_msg).2 with
    | none =>
        cases hp : i.robot_pose_msg <;>
          cases ht : i.target_velocity_msg <;>
            cases hprev : s.previous_target_velocity_msg <;>
              simp [tick, arbitrate, hw, hp, ht, hprev] at hcall <;>
                (try split at hcall) <;> simp_all
    | some q' =>
        cases hp : i.robot_pose_msg with
        | none =>
            cases ht : i.target_velocity_msg <;>
              cases hprev : s.previous_target_velocity_msg <;>
                simp [tick, arbitrate, hw, hp, ht, hprev] at hcall <;>
                  (try split at hcall) <;> simp_all
        | some rp =>
            simp [tick, arbitrate, hw, hp] at hcall
            have hq : q' = q := by
              obtain ⟨h1, -⟩ := hcall
              exact h1
            subst hq
            unfold planWatchdog at hw
            cases hm : (mergePlan s.goal_idx s.path_plan_msg i.path_plan_msg).2 with
            | none => rw [hm] at hw; simp at hw
            | some pm =>
                rw [hm] at hw
                by_cases hc : i.now - pm.timestamp > 5
                · simp [hc] at hw
                · simp [hc] at hw
                  subst hw
                  exact absurd hgt (by linarith)

/-- C5 witness: a plan received at time 0 and still held at time 6 is dropped
with no replacement present. -/
theorem plan_staleness_watchdog_witness :
    (tick (fun _ _ _ => ((0 : ℚ), (0 : ℚ), (0 : ℕ)))
        { initialControlState with path_plan_msg := some ⟨0, [(0, 0, 0)]⟩ }
        ⟨6, none, none, none, none⟩).state.path_plan_msg = none :=
  ((plan_staleness_watchdog (fun _ _ _ => ((0 : ℚ), (0 : ℚ), (0 : ℕ)))
      { initialControlState with path_plan_msg := some ⟨0, [(0, 0, 0)]⟩ }
      ⟨6, none, none, none, none⟩).1 ⟨0, [(0, 0, 0)]⟩ rfl (by norm_num)).1

/-- C6: a tick that observes a plan whose pose list differs from the held
one resets the follower's progress index to 0 and replaces the held plan;
any `vel_request` call on that tick is made with index 0, and if no call
happens the stored index is 0 for the next one. -/
theorem plan_replacement_resets_progress (f : Follower) (s : ControlState) (i : TickInput)
    (oldPlan newPlan : PATH_PLAN_MSG)
    (hheld : s.path_plan_msg = some oldPlan)
    (hobs : i.path_plan_msg = some newPlan)
    (hdiff : newPlan.path_pose_list ≠ oldPlan.path_pose_list) :
    mergePlan s.goal_idx s.path_plan_msg i.path_plan_msg = (0, some newPlan) ∧
    (∀ (q : PATH_PLAN_MSG) (pose : ℚ × ℚ × ℚ) (g : ℕ),
      (tick f s i).followerCall = some (q, pose, g) → g = 0) ∧
    ((tick f s i).followerCall = none → (tick f s i).state.goal_idx = 0) := by
  have hmerge : mergePlan s.goal_idx s.path_plan_msg i.path_plan_msg = (0, some newPlan) := by
    simp [mergePlan, hheld, hobs, hdiff]
  have hfc := arbitrate_followerCall f s i
  have hgi := arbitrate_goal_idx f s i
  rw [hmerge] at hfc hgi
  refine ⟨hmerge, ?_, ?_⟩
  · intro q pose g hcall
    rw [show (tick f s i).followerCall = (arbitrate f s i).followerCall from rfl, hfc] at hcall
    cases hw : planWatchdog i.now (some newPlan) <;>
      cases hp : i.robot_pose_msg <;>
        simp [hw, hp] at hcall <;> simp_all
  · intro hnone
    rw [show (tick f s i).followerCall = (arbitrate f s i).followerCall from rfl, hfc] at hnone
    rw [show (tick f s i).state.goal_idx = (arbitrate f s i).goal_idx from rfl, hgi]
    cases hw : planWatchdog i.now (some newPlan) <;>
      cases hp : i.robot_pose_msg <;>
        simp [hw, hp] at hnone ⊢

/-- C6 witness: a structurally different plan replaces the held one and the
progress index 5 is reset to 0. -/
theorem plan_replacement_resets_progress_witness :
    mergePlan 5 (some ⟨0, [(0, 0, 0)]⟩) (some (⟨1, [(1, 1, 1)]⟩ : PATH_PLAN_MSG)) =
      (0, some ⟨1, [(1, 1, 1)]⟩) :=
  (plan_replacement_resets_progress (fun _ _ _ => (0, 0, 0))
    { initialControlState with path_plan_msg := some ⟨0, [(0, 0, 0)]⟩, goal_idx := 5 }
    ⟨1, none, none, some ⟨1, [(1, 1, 1)]⟩, none⟩
    ⟨0, [(0, 0, 0)]⟩ ⟨1, [(1, 1, 1)]⟩ rfl rfl (by decide)).1

/-- The foldl inside `nearestEntry` returns the seed or a list element, and
its key is nearest to `now` among seed and elements. -/
lemma nearestEntry_foldl (now : ℚ) (as : List (ℚ × ℚ)) (a : ℚ × ℚ) :
    (as.foldl (fun best c => if |c.1 - now| < |best.1 - now| then c else best) a = a ∨
      as.foldl (fun best c => if |c.1 - now| < |best.1 - now| then c else best) a ∈ as) ∧
    |(as.foldl (fun best c => if |c.1 - now| < |best.1 - now| then c else best) a).1 - now| ≤
      |a.1 - now| ∧
    ∀ e' ∈ as,
      |(as.foldl (fun best c => if |c.1 - now| < |best.1 - now| then c else best) a).1 - now| ≤
        |e'.1 - now| := by
  induction as generalizing a with
  | nil => simp
  | cons x xs ih =>
      simp only [List.foldl_cons]
      by_cases hc : |x.1 - now| < |a.1 - now|
      · rw [if_pos hc]
        obtain ⟨h1, h2, h3⟩ := ih x
        refine ⟨?_, le_trans h2 (le_of_lt hc), ?_⟩
        · rcases h1 with h | h
          · exact Or.inr (by rw [h]; exact List.mem_cons_self x xs)
          · exact Or.inr (List.mem_cons_of_mem x h)
        · intro e' he'
          rcases List.mem_cons.mp he' with rfl | hmem
          · exact h2
          · exact h3 e' hmem
      · rw [if_neg hc]
        obtain ⟨h1, h2, h3⟩ := ih a
        refine ⟨?_, h2, ?_⟩
        · rcases h1 with h | h
          · exact Or.inl h
          · exact Or.inr (List.mem_cons_of_mem x h)
        · intro e' he'
          rcases List.mem_cons.mp he' with rfl | hmem
          · exact le_trans h2 (not_lt.mp hc)
          · exact h3 e' hmem

/-- `nearestEntry` returns an entry of the list whose timestamp minimizes the
distance to `now`. -/
lemma nearestEntry_spec (now : ℚ) (l : List (ℚ × ℚ)) (e : ℚ × ℚ)
    (h : nearestEntry now l = some e) :
    e ∈ l ∧ ∀ e' ∈ l, |e.1 - now| ≤ |e'.1 - now| := by
  cases l with
  | nil => simp [nearestEntry] at h
  | cons a as =>
      simp only [nearestEntry, Option.some.injEq] at h
      subst h
      obtain ⟨h1, h2, h3⟩ := nearestEntry_foldl now as a
      constructor
      · rcases h1 with h | h
        · rw [h]; exact List.mem_cons_self a as
        · exact List.mem_cons_of_mem a h
      · intro e' he'
        rcases List.mem_cons.mp he' with rfl | hmem
        · exact h2
        · exact h3 e' hmem

/-- `nearestEntry` is defined on every non-empty profile. -/
lemma nearestEntry_cons (now : ℚ) (a : ℚ × ℚ) (as : List (ℚ × ℚ)) :
    ∃ e, nearestEntry now (a :: as) = some e := ⟨_, rfl⟩

/-- C1 (amended): on a tick with no usable plan-and-pose, no fresh external
command, and a last adopted command younger than 2.0 s, the tick is
`Stopping`; a stopping profile seeded from that command's linear and angular
values is generated at the current time exactly when one of the held profiles
is missing (profiles are cleared only when an external command is adopted,
so a `Stopping` episode entered from `Following` reuses the previously
generated profile); and the emitted pair is, for each axis, the value of a
held-profile entry whose timestamp is nearest to the current time. -/
theorem stopping_state_behavior (f : Follower) (s : ControlState) (i : TickInput)
    (prev : TARGET_VELOCITY_MSG)
    (hnofollow :
      planWatchdog i.now (mergePlan s.goal_idx s.path_plan_msg i.path_plan_msg).2 = none ∨
      i.robot_pose_msg = none)
    (hnotarget : i.target_velocity_msg = none)
    (hprev : s.previous_target_velocity_msg = some prev)
    (hyoung : prev.timestamp > i.now - 2) :
    (tick f s i).source = .stopping ∧
    (tick f s i).state.previous_target_velocity_msg = some prev ∧
    ((s.stopping_velocity_profile_linear = none ∨ s.stopping_velocity_profile_angular = none) →
      (tick f s i).state.stopping_velocity_profile_linear =
        some (generate_stopping_velocity_profile prev 2 i.now).1 ∧
      (tick f s i).state.stopping_velocity_profile_angular =
        some (generate_stopping_velocity_profile prev 2 i.now).2) ∧
    (∀ l a, s.stopping_velocity_profile_linear = some l →
      s.stopping_velocity_profile_angular = some a →
      (tick f s i).state.stopping_velocity_profile_linear = some l ∧
      (tick f s i).state.stopping_velocity_profile_angular = some a) ∧
    (∀ l a, (tick f s i).state.stopping_velocity_profile_linear = some l →
      (tick f s i).state.stopping_velocity_profile_angular = some a →
      l ≠ [] → a ≠ [] →
      (∃ e ∈ l, (∀ e' ∈ l, |e.1 - i.now| ≤ |e'.1 - i.now|) ∧
        (tick f s i).command.linear_velocity_mps = e.2) ∧
      (∃ e ∈ a, (∀ e' ∈ a, |e.1 - i.now| ≤ |e'.1 - i.now|) ∧
        (tick f s i).command.angular_velocity_radps = e.2)) := by
  rcases hnofollow with hw | hp
  case inl =>
    cases hp2 : i.robot_pose_msg <;>
      · simp only [tick, arbitrate, hw, hp2, hnotarget, hprev]
        rw [if_pos hyoung]
        refine ⟨rfl, rfl, ?_, ?_, ?_⟩
        · intro hmiss
          cases hsl : s.stopping_velocity_profile_linear <;>
            cases hsa : s.stopping_velocity_profile_angular <;>
              simp_all
        · intro l a hl ha
          simp [hl, ha]
        · intro l a hl ha hlne hane
          obtain rfl : _ = l := Option.some.inj hl
          obtain rfl : _ = a := Option.some.inj ha
          constructor
          · cases hP : (match s.stopping_velocity_profile_linear,
                s.stopping_velocity_profile_angular with
              | some l, some a => (l, a)
              | _, _ => generate_stopping_velocity_profile prev 2 i.now).1 with
            | nil => exact absurd hP hlne
            | cons a0 as0 =>
                obtain ⟨e, he⟩ := nearestEntry_cons i.now a0 as0
                obtain ⟨hmem, hmin⟩ := nearestEntry_spec i.now (a0 :: as0) e he
                refine ⟨e, hmem, hmin, ?_⟩
                simp only [he, Option.getD_some]
          · cases hP : (match s.stopping_velocity_profile_linear,
                s.stopping_velocity_profile_angular with
              | some l, some a => (l, a)
              | _, _ => generate_stopping_velocity_profile prev 2 i.now).2 with
            | nil => exact absurd hP hane
            | cons a0 as0 =>
                obtain ⟨e, he⟩ := nearestEntry_cons i.now a0 as0
                obtain ⟨hmem, hmin⟩ := nearestEntry_spec i.now (a0 :: as0) e he
                refine ⟨e, hmem, hmin, ?_⟩
                simp only [he, Option.getD_some]
  case inr =>
    cases hw2 : planWatchdog i.now (mergePlan s.goal_idx s.path_plan_msg i.path_plan_msg).2 <;>
      · simp only [tick, arbitrate, hw2, hp, hnotarget, hprev]
        rw [if_pos hyoung]
        refine ⟨rfl, rfl, ?_, ?_, ?_⟩
        · intro hmiss
          cases hsl : s.stopping_velocity_profile_linear <;>
            cases hsa : s.stopping_velocity_profile_angular <;>
              simp_all
        · intro l a hl ha
          simp [hl, ha]
        · intro l a hl ha hlne hane
          obtain rfl : _ = l := Option.some.inj hl
          obtain rfl : _ = a := Option.some.inj ha
          constructor
          · cases hP : (match s.stopping_velocity_profile_linear,
                s.stopping_velocity_profile_angular with
              | some l, some a => (l, a)
              | _, _ => generate_stopping_velocity_profile prev 2 i.now).1 with
            | nil => exact absurd hP hlne
            | cons a0 as0 =>
                obtain ⟨e, he⟩ := nearestEntry_cons i.now a0 as0
                obtain ⟨hmem, hmin⟩ := nearestEntry_spec i.now (a0 :: as0) e he
                refine ⟨e, hmem, hmin, ?_⟩
                simp only [he, Option.getD_some]
          · cases hP : (match s.stopping_velocity_profile_linear,
                s.stopping_velocity_profile_angular with
              | some l, some a => (l, a)
              | _, _ => generate_stopping_velocity_profile prev 2 i.now).2 with
            | nil => exact absurd hP hane
            | cons a0 as0 =>
                obtain ⟨e, he⟩ := nearestEntry_cons i.now a0 as0
                obtain ⟨hmem, hmin⟩ := nearestEntry_spec i.now (a0 :: as0) e he
                refine ⟨e, hmem, hmin, ?_⟩
                simp only [he, Option.getD_some]


/-- C1 witness: a tick at `t = 1` with only a 1 s old previous command `(2, 1)`
enters `Stopping`. -/
theorem stopping_state_behavior_witness :
    (tick (fun _ _ _ => ((0 : ℚ), (0 : ℚ), (0 : ℕ)))
        { initialControlState with previous_target_velocity_msg := some ⟨0, 2, 1⟩ }
        ⟨1, none, none, none, none⟩).source = .stopping :=
  (stopping_state_behavior (fun _ _ _ => ((0 : ℚ), (0 : ℚ), (0 : ℕ)))
    { initialControlState with previous_target_velocity_msg := some ⟨0, 2, 1⟩ }
    ⟨1, none, none, none, none⟩ ⟨0, 2, 1⟩ (Or.inl rfl) rfl rfl (by norm_num)).1

/-- C1, counterexample to the claim as stated: tick 5 of the concrete run is
the first tick of a `Stopping` episode (tick 4 was `Following`, with last
adopted command `(3, 0)` at `t = 4`, younger than 2 s at `t = 5.5`), yet no
profile seeded from that command is generated at that moment: the held linear
profile is still the one generated at `t = 0.1` from the old command `(2, 1)`,
which differs from what `generate` would produce now. -/
theorem stopping_first_tick_cex :
    cexTick4.source = .following ∧
    cexTick4.state.previous_target_velocity_msg = some ⟨4, 3, 0⟩ ∧
    (4 : ℚ) > 11/2 - 2 ∧
    cexTick5.source = .stopping ∧
    cexTick5.state.stopping_velocity_profile_linear =
      some (generate_stopping_velocity_profile ⟨0, 2, 1⟩ 2 (1/10)).1 ∧
    (generate_stopping_velocity_profile ⟨0, 2, 1⟩ 2 (1/10)).1 ≠
      (generate_stopping_velocity_profile ⟨4, 3, 0⟩ 2 (11/2)).1 := by
  refine ⟨rfl, rfl, by norm_num, rfl, rfl, ?_⟩
  intro hEq
  have h1 : (generate_stopping_velocity_profile ⟨0, 2, 1⟩ 2 (1/10)).1.head? =
      some (1/10, 2) := by decide
  have h2 : (generate_stopping_velocity_profile ⟨4, 3, 0⟩ 2 (11/2)).1.head? =
      some (11/2, 3) := by decide
  rw [hEq, h2] at h1
  exact (by decide : ¬ (some ((11 : ℚ)/2, (3 : ℚ)) = some ((1 : ℚ)/10, 2))) h1


/-- C7: a velocity command is forwarded to the actuator only when the latched
localization-initialized flag (updated from this tick's message, kept
otherwise) is true; and the arbitration — the chosen command, its source, and
every cross-tick state field other than the flag itself — is computed
identically whatever the flag or the localization message, so the state
machine keeps evaluating while output is suppressed. -/
theorem localization_gating (f : Follower) (s : ControlState) (i : TickInput)
    (b : Bool) (m : Option LOCALIZATION_INITIALIZED_MSG) :
    (latchedFlag s i = false → (tick f s i).actuatorCommand = none) ∧
    ((tick f { s with localization_initialized := b }
          { i with localization_initialized_msg := m }).state.previous_target_velocity_msg =
        (tick f s i).state.previous_target_velocity_msg ∧
      (tick f { s with localization_initialized := b }
          { i with localization_initialized_msg := m }).state.stopping_velocity_profile_linear =
        (tick f s i).state.stopping_velocity_profile_linear ∧
      (tick f { s with localization_initialized := b }
          { i with localization_initialized_msg := m }).state.stopping_velocity_profile_angular =
        (tick f s i).state.stopping_velocity_profile_angular ∧
      (tick f { s with localization_initialized := b }
          { i with localization_initialized_msg := m }).state.path_plan_msg =
        (tick f s i).state.path_plan_msg ∧
      (tick f { s with localization_initialized := b }
          { i with localization_initialized_msg := m }).state.goal_idx =
        (tick f s i).state.goal_idx ∧
      (tick f { s with localization_initialized := b }
          { i with localization_initialized_msg := m }).command =
        (tick f s i).command ∧
      (tick f { s with localization_initialized := b }
          { i with localization_initialized_msg := m }).source =
        (tick f s i).source) := by
  constructor
  · intro hflag
    simp [tick, hflag]
  · exact ⟨rfl, rfl, rfl, rfl, rfl, rfl, rfl⟩

/-- C7 witness: with the flag never received (latched false), no actuator
command is issued. -/
theorem localization_gating_witness :
    (tick (fun _ _ _ => ((0 : ℚ), (0 : ℚ), (0 : ℕ))) initialControlState
        ⟨0, none, none, none, none⟩).actuatorCommand = none :=
  (localization_gating (fun _ _ _ => ((0 : ℚ), (0 : ℚ), (0 : ℕ))) initialControlState
    ⟨0, none, none, none, none⟩ false none).1 rfl

/-- C10: the wheel-velocities telemetry is published on a tick exactly when
the latched localization flag — this tick's message if one arrived, else the
previous value — is true, which is also the flag stored in the new state; when
it is false the tick publishes nothing (the publish sits in the same gated
block as the actuator write). -/
theorem telemetry_gating (f : Follower) (s : ControlState) (i : TickInput) :
    (tick f s i).publishedWheelTelemetry = latchedFlag s i ∧
    (tick f s i).state.localization_initialized = latchedFlag s i :=
  ⟨rfl, rfl⟩

end Quickstart
